import Mathlib

/-!
Verification of the multi-agent MCP server (`mcp-bearer-token/mcp_starter.py`)
as a shallow embedding.  The in-memory escalation queue (a global list plus a
global counter in the source) is modelled as explicit state of type `QState`
threaded through the operations.  Network effects (the HTTP GET inside
`Fetch.fetch_url`, the DuckDuckGo results page inside
`Fetch.duckduckgo_search_links`) are modelled by passing the response —
transport failure, status code, headers/body — as an explicit argument, and
the two black-box HTML libraries (`readabilipy` extraction, `markdownify`
rendering) as function-valued oracles.  Everything else is a direct
translation of the Python.

The Python string operations (`in`, `.lower()`, `.strip()`, `.split(sep)`,
`.replace`, `.startswith`) are given structurally recursive definitions over
`List Char` below, so every operation evaluates on concrete inputs by kernel
reduction.  `.lower()` is modelled on the ASCII range (the FAQ keys, routing
keywords and engine names of the source are all ASCII, where the two agree).
-/

/-- `pat` is a prefix of `cs`. -/
def prefixOfList (pat cs : List Char) : Bool :=
  match pat, cs with
  | [], _ => true
  | _ :: _, [] => false
  | p :: ps, c :: rest => p == c && prefixOfList ps rest

/-- `pat` occurs (contiguously) somewhere in `cs` — the Python `pat in s`. -/
def containsList (pat : List Char) : List Char → Bool
  | [] => prefixOfList pat []
  | c :: rest => prefixOfList pat (c :: rest) || containsList pat rest

/-- Python `pat in s`. -/
def strContains (s pat : String) : Bool :=
  containsList pat.data s.data

/-- Python `s.startswith(pat)`. -/
def strStartsWith (s pat : String) : Bool :=
  prefixOfList pat.data s.data

/-- Python `s.lower()` (ASCII range). -/
def strLower (s : String) : String :=
  ⟨s.data.map Char.toLower⟩

/-- Leading whitespace removed. -/
def dropWhileSpace : List Char → List Char
  | [] => []
  | c :: rest => if c.isWhitespace then dropWhileSpace rest else c :: rest

/-- Python `s.strip()`: leading and trailing whitespace removed. -/
def strTrim (s : String) : String :=
  ⟨(dropWhileSpace (dropWhileSpace s.data).reverse).reverse⟩

/-- Python `s.replace("\n", " ")` for the one-character pattern used by the
source: every newline becomes a space. -/
def strReplaceNewlines (s : String) : String :=
  ⟨s.data.map (fun c => if c == '\n' then ' ' else c)⟩

/-- Fuel-driven worker for `strSplitOn`: scan left to right; whenever `sep` is
a prefix of the remaining input, emit the accumulated piece and skip `sep`.
The fuel only bounds the recursion (each step consumes at least one character
when `sep` is nonempty), so `length + 1` fuel is always enough. -/
def splitOnGo (sep : List Char) : Nat → List Char → List Char → List (List Char)
  | _, [], acc => [acc.reverse]
  | 0, hay, acc => [acc.reverse ++ hay]
  | fuel + 1, c :: rest, acc =>
    if prefixOfList sep (c :: rest) then
      acc.reverse :: splitOnGo sep fuel (List.drop sep.length (c :: rest)) []
    else
      splitOnGo sep fuel rest (c :: acc)

/-- Python `s.split(sep)` for a nonempty literal separator: leftmost,
non-overlapping occurrences of `sep` cut the string. -/
def strSplitOn (s sep : String) : List String :=
  (splitOnGo sep.data (s.data.length + 1) s.data []).map List.asString

/-- Machine-distinguishable error codes actually used by the source:
`INVALID_PARAMS` and `INTERNAL_ERROR` from `mcp.types`. -/
inductive ErrCode where
  | invalidParams
  | internalError
deriving Repr, DecidableEq

/-- `McpError(ErrorData(code, message))` from the source. -/
structure McpErr where
  code : ErrCode
  message : String
deriving Repr, DecidableEq

/-- One escalation record, per the comment at `mcp_starter.py:117`:
`{"id":int,"query":str,"from":str,"priority":int,"status":"open"|"resolved",
"human_response":str|None}`.  The `"from"` key is called `origin` here because
`from` is a Lean keyword.  `status` is a plain string in the source (the
listing filter compares it literally), so it is a `String` here too. -/
structure Ticket where
  id : Nat
  query : String
  origin : String
  priority : Int
  status : String
  human_response : Option String
deriving Repr, DecidableEq

/-- The queue state: `ESCALATION_DB` and `NEXT_ESCALATION_ID`
(`mcp_starter.py:118-119`). -/
structure QState where
  db : List Ticket
  next_id : Nat
deriving Repr, DecidableEq

/-- The state at process start: empty list, counter at 1. -/
def initState : QState := ⟨[], 1⟩

/-- A to-be-pushed item before `_push_escalation` stamps its id: all fields of
`Ticket` except `id`. -/
structure EscItem where
  query : String
  origin : String
  priority : Int
  status : String
  human_response : Option String
deriving Repr, DecidableEq

/-- `_push_escalation` (`mcp_starter.py:121-126`): stamp the item with
`NEXT_ESCALATION_ID`, increment the counter, append to `ESCALATION_DB`,
return the stamped item. -/
def _push_escalation (item : EscItem) (s : QState) : Ticket × QState :=
  let t : Ticket :=
    ⟨s.next_id, item.query, item.origin, item.priority, item.status, item.human_response⟩
  (t, ⟨s.db ++ [t], s.next_id + 1⟩)

/-- The FAQ mapping of `customer_care_agent` (`mcp_starter.py:131-136`), as an
ordered association list: Python dicts preserve insertion order, and the
`for k, v in faq.items()` loop visits keys in exactly this order. -/
def faq : List (String × String) :=
  [("refund", "Our refund policy: please request within 14 days at https://example.com/refund. Refunds processed in 5-7 business days."),
   ("tracking", "To track your order use the tracking link emailed to you, or visit https://example.com/track and enter order id."),
   ("cancel", "Orders can be cancelled within 2 hours of purchase from your orders page."),
   ("warranty", "All electronics have a 1-year limited warranty (see https://example.com/warranty).")]

/-- `customer_care_agent` (`mcp_starter.py:129-144`): first FAQ key occurring
in the lower-cased query wins (`List.find?` is the `for`/`if`/`return` loop);
on no match, push an escalation with priority 3 and acknowledge it. -/
def customer_care_agent (query : String) (s : QState) : String × QState :=
  let q_lower := strLower query
  match faq.find? (fun kv => strContains q_lower kv.1) with
  | some kv =>
    let v := kv.2
    (s!"📞 Customer Care: {v}", s)
  | none =>
    let (escalated, s2) := _push_escalation ⟨query, "user", 3, "open", none⟩ s
    let i := escalated.id
    (s!"📞 Customer Care: I couldn't confidently answer — I've created an escalation (id={i}) for a human operator to handle.", s2)

/-- The DuckDuckGo results-page response seen by `duckduckgo_search_links`:
either a transport failure (an `httpx.HTTPError`), or a response with a status
code and the `href` values of the `a.result__a[href]` anchors in page order. -/
inductive DdgResp where
  | failure
  | success (status : Nat) (anchors : List String)
deriving Repr, DecidableEq

/-- The collection loop of `duckduckgo_search_links` (`mcp_starter.py:99-104`):
for each anchor `href`, append it when it starts with `"http"`, then break as
soon as `max_results` links have been collected. -/
def collectLinks (max_results : Nat) (anchors : List String) (acc : List String) :
    List String :=
  match anchors with
  | [] => acc
  | href :: rest =>
    let acc2 := if strStartsWith href "http" then acc ++ [href] else acc
    if max_results ≤ acc2.length then acc2
    else collectLinks max_results rest acc2

/-- `Fetch.duckduckgo_search_links` (`mcp_starter.py:87-105`): transport
failure or non-200 status degrades to the `"<error>Search failed</error>"`
sentinel; otherwise collect anchor links, and degrade an empty collection to
the `"<error>No results found</error>"` sentinel (`return links or [...]`). -/
def duckduckgo_search_links (resp : DdgResp) (max_results : Nat) : List String :=
  match resp with
  | .failure => ["<error>Search failed</error>"]
  | .success status anchors =>
    if status ≠ 200 then ["<error>Search failed</error>"]
    else
      let links := collectLinks max_results anchors []
      if links.isEmpty then ["<error>No results found</error>"] else links

/-- `web_search_agent` (`mcp_starter.py:147-157`): only DuckDuckGo (names
`"duckduckgo"`/`"ddg"`, case-insensitive) is supported; it searches with
`max_results=6`, renders the first 4 links as `- <link>` lines, and any other
engine name raises `INVALID_PARAMS`. -/
def web_search_agent (resp : DdgResp) (query : String) (engine : String) :
    Except McpErr String :=
  if strLower engine = "duckduckgo" ∨ strLower engine = "ddg" then
    let links := duckduckgo_search_links resp 6
    let results := (links.take 4).map (fun link => s!"- {link}")
    let body := String.intercalate "\n" results
    .ok (s!"🔎 Web Search ({engine}) results for: {query}\n\n" ++ body)
  else
    .error ⟨.invalidParams, s!"Unsupported engine: {engine}"⟩

/-- The search-signal test of the supervisor (`mcp_starter.py:181`), on the
lower-cased intent hint `il` and lower-cased query `ql`. -/
def searchSignal (il ql : String) : Bool :=
  strContains il "search" || il == "web" || il == "search" ||
    strContains ql "find" || strContains ql "look for"

/-- The support-signal test of the supervisor (`mcp_starter.py:184`). -/
def supportSignal (il ql : String) : Bool :=
  strContains il "support" || il == "support" || strContains ql "refund" ||
    strContains ql "tracking" || strContains ql "cancel"

/-- Python `x or default` for an optional string: `None` and the empty string
are falsy, anything else is itself.  This is line 182's
`search_engine or "duckduckgo"`. -/
def orDefault (x : Option String) (dflt : String) : String :=
  match x with
  | some s => if s == "" then dflt else s
  | none => dflt

/-- `supervisor` (`mcp_starter.py:167-188`): priority ≥ 5 escalates
immediately; else a search signal routes to `web_search_agent` with the given
engine or — for a `None` or empty hint — the `"duckduckgo"` default; else —
support signal or not — the query goes to `customer_care_agent`.
`intent = none` and `intent = some ""` both give `il = ""` exactly as
`intent.lower() if intent else ""` does. -/
def supervisor (resp : DdgResp) (query : String) (intent : Option String)
    (priority : Int) (search_engine : Option String) (s : QState) :
    Except McpErr String × QState :=
  if priority ≥ 5 then
    let (ticket, s2) := _push_escalation ⟨query, "user", priority, "open", none⟩ s
    let i := ticket.id
    (.ok s!"Supervisor: Urgent issue — escalated to human operator with id={i}.", s2)
  else
    let il := match intent with | some t => strLower t | none => ""
    let ql := strLower query
    if searchSignal il ql then
      let engine := orDefault search_engine "duckduckgo"
      (web_search_agent resp query engine, s)
    else if supportSignal il ql then
      let (out, s2) := customer_care_agent query s
      (.ok out, s2)
    else
      let (out, s2) := customer_care_agent query s
      (.ok out, s2)

/-- One rendered line of `list_escalations` (`mcp_starter.py:203`). -/
def renderTicket (e : Ticket) : String :=
  let i := e.id
  let p := e.priority
  let st := e.status
  let q := e.query
  s!"id={i} | priority={p} | status={st} | query={q}"

/-- `list_escalations` (`mcp_starter.py:197-204`): keep the tickets passing
the (optional, literal) status filter, in stored order; render one line per
ticket, or the literal `"No escalations."` when none remain. -/
def list_escalations (s : QState) (status : Option String) : String :=
  let rows := s.db.filter (fun e =>
    match status with
    | none => true
    | some st => e.status == st)
  if rows.isEmpty then "No escalations."
  else String.intercalate "\n" (rows.map renderTicket)

/-- The search loop of `respond_escalation` (`mcp_starter.py:214-218`): walk
the list, and on the first ticket whose id matches, set its `human_response`
and `status` and stop; `none` when no ticket matches. -/
def resolveInList (ticket_id : Nat) (human_response : String) :
    List Ticket → Option (List Ticket)
  | [] => none
  | e :: rest =>
    if e.id = ticket_id then
      some ({ e with human_response := some human_response, status := "resolved" } :: rest)
    else
      match resolveInList ticket_id human_response rest with
      | some rest2 => some (e :: rest2)
      | none => none

/-- `respond_escalation` (`mcp_starter.py:213-219`): resolve the first ticket
with the given id in place, or raise `INVALID_PARAMS` naming the missing id. -/
def respond_escalation (s : QState) (ticket_id : Nat) (human_response : String) :
    Except McpErr String × QState :=
  match resolveInList ticket_id human_response s.db with
  | some db2 =>
    (.ok s!"Escalation id={ticket_id} marked resolved. Human response:\n\n{human_response}",
      ⟨db2, s.next_id⟩)
  | none => (.error ⟨.invalidParams, s!"Ticket id {ticket_id} not found."⟩, s)

/-- The HTTP response seen by `Fetch.fetch_url`: transport failure (with the
repr of the `httpx.HTTPError`) or a response with status code, declared
content type and body text. -/
inductive HttpResp where
  | transportError (reason : String)
  | response (status : Nat) (content_type : String) (text : String)
deriving Repr, DecidableEq

/-- `Fetch.extract_content_from_html` (`mcp_starter.py:76-85`), with the two
libraries as oracles: `simplify` is `readabilipy.simple_json_from_html_string`
collapsed to `none` when it throws or yields no `"content"` (the
`not ret or not ret.get("content")` test), and `md` is `markdownify`. -/
def extract_content_from_html (simplify : String → Option String)
    (md : String → String) (html : String) : String :=
  match simplify html with
  | none => "<error>Failed to simplify page</error>"
  | some content => md content

/-- `Fetch.fetch_url` (`mcp_starter.py:58-74`): transport failure and status
≥ 400 raise `INTERNAL_ERROR`; an HTML response (content type containing
`"text/html"`) without `force_raw` is simplified with empty note; anything
else is returned raw with a content-type note.  (The `user_agent` argument of
the source only shapes the outgoing request header, which lives inside the
`resp` argument here.) -/
def fetch_url (simplify : String → Option String) (md : String → String)
    (resp : HttpResp) (url : String) (force_raw : Bool) :
    Except McpErr (String × String) :=
  match resp with
  | .transportError reason =>
    .error ⟨.internalError, s!"Failed to fetch {url}: {reason}"⟩
  | .response status content_type text =>
    if 400 ≤ status then
      .error ⟨.internalError, s!"Failed to fetch {url} - status {status}"⟩
    else
      let is_html := strContains content_type "text/html"
      if is_html && !force_raw then
        .ok (extract_content_from_html simplify md text, "")
      else
        .ok (text, s!"Raw content with content-type: {content_type}\n")

/-- The fragment list of `summarize_url` (`mcp_starter.py:232-234`): newlines
to spaces, strip, split on the literal `". "`, strip each fragment and drop
the empty ones. -/
def sentences_list (content : String) : List String :=
  let text := strTrim (strReplaceNewlines content)
  ((strSplitOn text ". ").map strTrim).filter (fun frag => !(frag == ""))

/-- The summarization of `summarize_url` (`mcp_starter.py:232-235`), named
`summarize` as in the specification: rejoin the first `sentences` fragments
with `". "` and append a final `"."` only when at least `sentences` fragments
were available. -/
def summarize (content : String) (sentences : Nat) : String :=
  String.intercalate ". " ((sentences_list content).take sentences) ++
    (if sentences ≤ (sentences_list content).length then "." else "")

/-- `summarize_url` (`mcp_starter.py:227-235`): fetch the url (default
arguments: no custom user agent, `force_raw=False`); any body starting with
`"<error>"` — the soft-failure sentinel — is promoted to a hard
`INTERNAL_ERROR`; otherwise summarize. -/
def summarize_url (simplify : String → Option String) (md : String → String)
    (resp : HttpResp) (url : String) (sentences : Nat) : Except McpErr String :=
  match fetch_url simplify md resp url false with
  | .error e => .error e
  | .ok (content, _) =>
    if strStartsWith content "<error>" then
      .error ⟨.internalError, "Failed to fetch content."⟩
    else
      .ok (summarize content sentences)

/-!
## Operation sequences

The server mutates the queue through three code paths: `customer_care_agent`
(the no-match escalation), `supervisor` (the priority escalation, or a
delegation), and `respond_escalation`.  `list_escalations` only reads.  An
`Op` is one invocation of one of these, and `run` plays a sequence from the
process-start state.
-/

/-- One queue-touching invocation. -/
inductive Op where
  | care (query : String)
  | sup (resp : DdgResp) (query : String) (intent : Option String)
      (priority : Int) (engine : Option String)
  | resolveOp (ticket_id : Nat) (human_response : String)

/-- The ticket-creating invocations (both escalation paths); `resolveOp` only
mutates existing tickets. -/
def Op.isCreate : Op → Bool
  | .resolveOp _ _ => false
  | _ => true

/-- State transition of one invocation. -/
def step (s : QState) : Op → QState
  | .care q => (customer_care_agent q s).2
  | .sup r q i p e => (supervisor r q i p e s).2
  | .resolveOp tid hr => (respond_escalation s tid hr).2

/-- The state after a sequence of invocations, starting from process start. -/
def run (ops : List Op) : QState :=
  ops.foldl step initState

/-- Structural queue invariant: the stored ids are `1, 2, …, n` in order and
the counter is at `n + 1`. -/
def idsOk (s : QState) : Prop :=
  s.db.map Ticket.id = List.range' 1 s.db.length ∧ s.next_id = s.db.length + 1

/-- A ticket is either still open with no response, or resolved with one. -/
def statusOk (t : Ticket) : Prop :=
  (t.status = "open" ∧ t.human_response = none) ∨
    (t.status = "resolved" ∧ ∃ r, t.human_response = some r)

theorem idsOk_init : idsOk initState := by
  constructor <;> rfl


theorem push_status (s : QState) (item : EscItem) :
    (_push_escalation item s).2.db =
      s.db ++ [⟨s.next_id, item.query, item.origin, item.priority, item.status,
        item.human_response⟩] := rfl

theorem push_next (s : QState) (item : EscItem) :
    (_push_escalation item s).2.next_id = s.next_id + 1 := rfl

theorem idsOk_push (s : QState) (item : EscItem) (h : idsOk s) :
    idsOk (_push_escalation item s).2 := by
  obtain ⟨hmap, hnext⟩ := h
  constructor
  · rw [push_status, List.map_append, hmap, List.length_append]
    simp only [List.map_cons, List.map_nil, List.length_cons, List.length_nil,
      Nat.zero_add]
    rw [List.range'_concat 1 s.db.length, hnext]
    simp [Nat.add_comm]
  · rw [push_next, push_status, List.length_append, hnext]
    simp

/-- The second component of `customer_care_agent` is either the unchanged
state or a push of an open, unanswered, priority-3 escalation. -/
theorem care_state (q : String) (s : QState) :
    (customer_care_agent q s).2 = s ∨
      (customer_care_agent q s).2 = (_push_escalation ⟨q, "user", 3, "open", none⟩ s).2 := by
  simp only [customer_care_agent]
  cases hf : faq.find? (fun kv => strContains (strLower q) kv.1) with
  | some kv => left; rfl
  | none => right; rfl

/-- The second component of `supervisor` is the unchanged state, a push of an
open unanswered escalation, or whatever `customer_care_agent` does. -/
theorem supervisor_state (r : DdgResp) (q : String) (i : Option String) (p : Int)
    (e : Option String) (s : QState) :
    (supervisor r q i p e s).2 = s ∨
      (supervisor r q i p e s).2 = (_push_escalation ⟨q, "user", p, "open", none⟩ s).2 ∨
      (supervisor r q i p e s).2 = (customer_care_agent q s).2 := by
  simp only [supervisor]
  by_cases h5 : p ≥ 5
  · rw [if_pos h5]; right; left; rfl
  · rw [if_neg h5]
    by_cases hs : searchSignal (match i with | some t => strLower t | none => "")
        (strLower q) = true
    · rw [if_pos hs]; left; rfl
    · rw [if_neg hs, ite_self]; right; right; rfl

theorem resolveInList_none_iff (tid : Nat) (hr : String) (db : List Ticket) :
    resolveInList tid hr db = none ↔ ∀ t ∈ db, t.id ≠ tid := by
  induction db with
  | nil => simp [resolveInList]
  | cons e rest ih =>
    by_cases he : e.id = tid
    · simp [resolveInList, he]
    · simp only [resolveInList, if_neg he]
      cases hres : resolveInList tid hr rest with
      | some rest2 =>
        have hnot : ¬ (∀ t ∈ rest, t.id ≠ tid) := by rw [← ih]; simp [hres]
        constructor
        · intro hx
          exact absurd hx (Option.some_ne_none (e :: rest2))
        · intro hall2
          exact absurd (fun t ht => hall2 t (List.mem_cons_of_mem e ht)) hnot
      | none =>
        have hall : ∀ t ∈ rest, t.id ≠ tid := ih.1 hres
        exact ⟨fun _ => List.forall_mem_cons.2 ⟨he, hall⟩, fun _ => rfl⟩

theorem resolveInList_some_shape (tid : Nat) (hr : String) (db db2 : List Ticket)
    (h : resolveInList tid hr db = some db2) :
    ∃ pre t post, db = pre ++ t :: post ∧ (∀ u ∈ pre, u.id ≠ tid) ∧ t.id = tid ∧
      db2 = pre ++ { t with status := "resolved", human_response := some hr } :: post := by
  induction db generalizing db2 with
  | nil => simp [resolveInList] at h
  | cons e rest ih =>
    simp only [resolveInList] at h
    by_cases he : e.id = tid
    · rw [if_pos he] at h
      injection h with h
      exact ⟨[], e, rest, rfl, by simp, he, h.symm⟩
    · rw [if_neg he] at h
      cases hres : resolveInList tid hr rest with
      | none =>
        simp only [hres] at h
        exact Option.noConfusion h
      | some rest2 =>
        simp only [hres] at h
        injection h with h
        obtain ⟨pre, t, post, hsplit, hpre, ht, hres2⟩ := ih rest2 hres
        refine ⟨e :: pre, t, post, ?_, ?_, ht, ?_⟩
        · rw [hsplit]; rfl
        · intro u hu
          rcases List.mem_cons.1 hu with h1 | h1
          · subst h1; exact he
          · exact hpre u h1
        · rw [← h, hres2]; rfl

theorem resolveInList_of_split (tid : Nat) (hr : String) (pre : List Ticket)
    (t : Ticket) (post : List Ticket) (hpre : ∀ u ∈ pre, u.id ≠ tid) (ht : t.id = tid) :
    resolveInList tid hr (pre ++ t :: post) =
      some (pre ++ { t with status := "resolved", human_response := some hr } :: post) := by
  induction pre with
  | nil => simp [resolveInList, ht]
  | cons u rest ih =>
    have hu : u.id ≠ tid := hpre u (List.mem_cons_self u rest)
    have hrest : ∀ v ∈ rest, v.id ≠ tid := fun v hv => hpre v (List.mem_cons_of_mem u hv)
    simp only [List.cons_append, resolveInList, if_neg hu, List.append_eq, ih hrest]

theorem resolveInList_ids (tid : Nat) (hr : String) (db db2 : List Ticket)
    (h : resolveInList tid hr db = some db2) :
    db2.map Ticket.id = db.map Ticket.id ∧ db2.length = db.length := by
  obtain ⟨pre, t, post, hsplit, _, _, hres⟩ := resolveInList_some_shape tid hr db db2 h
  subst hsplit hres
  constructor <;> simp

theorem resolveInList_status (tid : Nat) (hr : String) (db db2 : List Ticket)
    (h : resolveInList tid hr db = some db2) (hall : ∀ t ∈ db, statusOk t) :
    ∀ t ∈ db2, statusOk t := by
  obtain ⟨pre, t, post, hsplit, _, _, hres⟩ := resolveInList_some_shape tid hr db db2 h
  subst hsplit hres
  intro u hu
  rcases List.mem_append.1 hu with h1 | h1
  · exact hall u (List.mem_append.2 (Or.inl h1))
  · rcases List.mem_cons.1 h1 with h2 | h2
    · subst h2; right; exact ⟨rfl, hr, rfl⟩
    · exact hall u (List.mem_append.2 (Or.inr (List.mem_cons_of_mem t h2)))

theorem respond_state (s : QState) (tid : Nat) (hr : String) :
    (respond_escalation s tid hr).2 =
      match resolveInList tid hr s.db with
      | some db2 => ⟨db2, s.next_id⟩
      | none => s := by
  simp only [respond_escalation]
  cases resolveInList tid hr s.db with
  | some db2 => rfl
  | none => rfl

theorem idsOk_step (s : QState) (op : Op) (h : idsOk s) : idsOk (step s op) := by
  cases op with
  | care q =>
    rcases care_state q s with hc | hc <;> simp only [step, hc]
    · exact h
    · exact idsOk_push s _ h
  | sup r q i p e =>
    rcases supervisor_state r q i p e s with hc | hc | hc <;> simp only [step, hc]
    · exact h
    · exact idsOk_push s _ h
    · rcases care_state q s with hc2 | hc2 <;> rw [hc2]
      · exact h
      · exact idsOk_push s _ h
  | resolveOp tid hr =>
    show idsOk (respond_escalation s tid hr).2
    rw [respond_state]
    cases hres : resolveInList tid hr s.db with
    | none => exact h
    | some db2 =>
      obtain ⟨hmap, hlen⟩ := resolveInList_ids tid hr s.db db2 hres
      exact ⟨by simpa [hmap, hlen] using h.1, by simpa [hlen] using h.2⟩

theorem statusOk_step (s : QState) (op : Op) (h : ∀ t ∈ s.db, statusOk t) :
    ∀ t ∈ (step s op).db, statusOk t := by
  have hpush : ∀ item : EscItem, item.status = "open" → item.human_response = none →
      ∀ t ∈ (_push_escalation item s).2.db, statusOk t := by
    intro item h1 h2 t ht
    rw [push_status] at ht
    rcases List.mem_append.1 ht with hm | hm
    · exact h t hm
    · rcases List.mem_cons.1 hm with hm2 | hm2
      · subst hm2; left; exact ⟨h1, h2⟩
      · simp at hm2
  cases op with
  | care q =>
    rcases care_state q s with hc | hc <;> simp only [step, hc]
    · exact h
    · exact hpush _ rfl rfl
  | sup r q i p e =>
    rcases supervisor_state r q i p e s with hc | hc | hc <;> simp only [step, hc]
    · exact h
    · exact hpush _ rfl rfl
    · rcases care_state q s with hc2 | hc2 <;> rw [hc2]
      · exact h
      · exact hpush _ rfl rfl
  | resolveOp tid hr =>
    show ∀ t ∈ (respond_escalation s tid hr).2.db, statusOk t
    rw [respond_state]
    cases hres : resolveInList tid hr s.db with
    | none => exact h
    | some db2 => exact resolveInList_status tid hr s.db db2 hres h

theorem run_invariant (ops : List Op) :
    idsOk (run ops) ∧ ∀ t ∈ (run ops).db, statusOk t := by
  suffices h : ∀ s, idsOk s → (∀ t ∈ s.db, statusOk t) →
      idsOk (ops.foldl step s) ∧ ∀ t ∈ (ops.foldl step s).db, statusOk t by
    exact h initState idsOk_init (by intro t ht; simp [initState] at ht)
  induction ops with
  | nil => intro s h1 h2; exact ⟨h1, h2⟩
  | cons op rest ih =>
    intro s h1 h2
    exact ih (step s op) (idsOk_step s op h1) (statusOk_step s op h2)

theorem pairwise_lt_range'_one (s n : Nat) : (List.range' s n).Pairwise (· < ·) := by
  induction n generalizing s with
  | zero => simp
  | succ n ih =>
    rw [List.range'_succ]
    refine List.Pairwise.cons ?_ (ih (s + 1))
    intro m hm
    obtain ⟨i, hi, rfl⟩ := List.mem_range'.1 hm
    omega

theorem openOk_step (s : QState) (op : Op) (hop : op.isCreate = true)
    (h : ∀ t ∈ s.db, t.status = "open" ∧ t.human_response = none) :
    ∀ t ∈ (step s op).db, t.status = "open" ∧ t.human_response = none := by
  have hpush : ∀ item : EscItem, item.status = "open" → item.human_response = none →
      ∀ t ∈ (_push_escalation item s).2.db,
        t.status = "open" ∧ t.human_response = none := by
    intro item h1 h2 t ht
    rw [push_status] at ht
    rcases List.mem_append.1 ht with hm | hm
    · exact h t hm
    · rcases List.mem_cons.1 hm with hm2 | hm2
      · subst hm2; exact ⟨h1, h2⟩
      · simp at hm2
  cases op with
  | care q =>
    rcases care_state q s with hc | hc <;> simp only [step, hc]
    · exact h
    · exact hpush _ rfl rfl
  | sup r q i p e =>
    rcases supervisor_state r q i p e s with hc | hc | hc <;> simp only [step, hc]
    · exact h
    · exact hpush _ rfl rfl
    · rcases care_state q s with hc2 | hc2 <;> rw [hc2]
      · exact h
      · exact hpush _ rfl rfl
  | resolveOp tid hr => simp [Op.isCreate] at hop

/-- C1: across any sequence of ticket creations — via the Support Responder's
no-match path or the Supervisor's priority escalation — the stored ids are
exactly `1, 2, …, n` in creation order (so they start at 1, strictly increase
and are unique), the counter stands at `n + 1`, and every ticket as created
has `status = "open"` and no `human_response`. -/
theorem create_sequence_invariant (ops : List Op) (hc : ∀ op ∈ ops, op.isCreate = true) :
    (run ops).db.map Ticket.id = List.range' 1 (run ops).db.length ∧
    ((run ops).db.map Ticket.id).Pairwise (· < ·) ∧
    (run ops).next_id = (run ops).db.length + 1 ∧
    ∀ t ∈ (run ops).db, t.status = "open" ∧ t.human_response = none := by
  obtain ⟨⟨hmap, hnext⟩, _⟩ := run_invariant ops
  refine ⟨hmap, ?_, hnext, ?_⟩
  · rw [hmap]; exact pairwise_lt_range'_one 1 _
  · suffices h : ∀ (ops2 : List Op) (s : QState), (∀ op ∈ ops2, op.isCreate = true) →
        (∀ t ∈ s.db, t.status = "open" ∧ t.human_response = none) →
        ∀ t ∈ (ops2.foldl step s).db, t.status = "open" ∧ t.human_response = none by
      exact h ops initState hc (by intro t ht; simp [initState] at ht)
    intro ops2
    induction ops2 with
    | nil => intro s _ hs; exact hs
    | cons op rest ih =>
      intro s hall hs
      exact ih (step s op) (fun o ho => hall o (List.mem_cons_of_mem op ho))
        (openOk_step s op (hall op (List.mem_cons_self op rest)) hs)

/-- Witness for C1: one no-match support escalation followed by one priority-5
supervisor escalation leaves tickets with ids `[1, 2]`, all open, no
responses, counter at 3. -/
theorem create_sequence_invariant_witness :
    (run [Op.care "my package is lost", Op.sup .failure "urgent" none 5 none]).db.map Ticket.id =
        List.range' 1 (run [Op.care "my package is lost", Op.sup .failure "urgent" none 5 none]).db.length ∧
      ((run [Op.care "my package is lost", Op.sup .failure "urgent" none 5 none]).db.map Ticket.id).Pairwise (· < ·) ∧
      (run [Op.care "my package is lost", Op.sup .failure "urgent" none 5 none]).next_id =
        (run [Op.care "my package is lost", Op.sup .failure "urgent" none 5 none]).db.length + 1 ∧
      ∀ t ∈ (run [Op.care "my package is lost", Op.sup .failure "urgent" none 5 none]).db,
        t.status = "open" ∧ t.human_response = none :=
  create_sequence_invariant
    [Op.care "my package is lost", Op.sup .failure "urgent" none 5 none] (by decide)

/-- C2: `respond_escalation` fails — with `INVALID_PARAMS` and a message
naming the missing id — exactly when no stored ticket has the requested id,
and leaves the state unchanged; when a ticket with the id exists (written as
the first match `t` after a prefix without the id), it sets that ticket's
`human_response` and `status = "resolved"` in place and reports the update,
and a repeated resolve of the same id overwrites the response instead of
failing. -/
theorem respond_escalation_spec (s : QState) (tid : Nat) (hr hr2 : String) :
    ((∀ t ∈ s.db, t.id ≠ tid) →
      respond_escalation s tid hr =
        (.error ⟨.invalidParams, s!"Ticket id {tid} not found."⟩, s)) ∧
    ((∃ err st, respond_escalation s tid hr = (.error err, st)) ↔
      ∀ t ∈ s.db, t.id ≠ tid) ∧
    (∀ (pre : List Ticket) (t : Ticket) (post : List Ticket),
      s.db = pre ++ t :: post → (∀ u ∈ pre, u.id ≠ tid) → t.id = tid →
      respond_escalation s tid hr =
        (.ok s!"Escalation id={tid} marked resolved. Human response:\n\n{hr}",
          ⟨pre ++ { t with status := "resolved", human_response := some hr } :: post,
            s.next_id⟩) ∧
      respond_escalation (respond_escalation s tid hr).2 tid hr2 =
        (.ok s!"Escalation id={tid} marked resolved. Human response:\n\n{hr2}",
          ⟨pre ++ { t with status := "resolved", human_response := some hr2 } :: post,
            s.next_id⟩)) := by
  refine ⟨?_, ⟨?_, ?_⟩, ?_⟩
  · intro hnone
    have h := (resolveInList_none_iff tid hr s.db).2 hnone
    simp only [respond_escalation, h]
  · rintro ⟨err, st, heq⟩
    rw [← resolveInList_none_iff tid hr s.db]
    cases hres : resolveInList tid hr s.db with
    | none => rfl
    | some db2 => simp only [respond_escalation, hres] at heq; cases heq
  · intro hnone
    have h := (resolveInList_none_iff tid hr s.db).2 hnone
    exact ⟨⟨.invalidParams, s!"Ticket id {tid} not found."⟩, s,
      by simp only [respond_escalation, h]⟩
  · intro pre t post hsplit hpre ht
    have h1 : resolveInList tid hr s.db =
        some (pre ++ { t with status := "resolved", human_response := some hr } :: post) := by
      rw [hsplit]; exact resolveInList_of_split tid hr pre t post hpre ht
    have hfirst : respond_escalation s tid hr =
        (.ok s!"Escalation id={tid} marked resolved. Human response:\n\n{hr}",
          ⟨pre ++ { t with status := "resolved", human_response := some hr } :: post,
            s.next_id⟩) := by
      simp only [respond_escalation, h1]
    refine ⟨hfirst, ?_⟩
    rw [hfirst]
    have h2 : resolveInList tid hr2
        (pre ++ { t with status := "resolved", human_response := some hr } :: post) =
        some (pre ++ { t with status := "resolved", human_response := some hr2 } :: post) :=
      resolveInList_of_split tid hr2 pre
        { t with status := "resolved", human_response := some hr } post hpre ht
    simp only [respond_escalation, h2]

/-- Witness for C2 on a concrete two-ticket queue: resolving id 2 succeeds
and rewrites exactly that ticket, and resolving it again overwrites. -/
theorem respond_escalation_spec_witness :
    respond_escalation ⟨[⟨1, "q1", "user", 3, "open", none⟩,
        ⟨2, "q2", "user", 4, "open", none⟩], 3⟩ 2 "done" =
      (.ok "Escalation id=2 marked resolved. Human response:\n\ndone",
        ⟨[⟨1, "q1", "user", 3, "open", none⟩,
          ⟨2, "q2", "user", 4, "resolved", some "done"⟩], 3⟩) ∧
    respond_escalation
        (respond_escalation ⟨[⟨1, "q1", "user", 3, "open", none⟩,
          ⟨2, "q2", "user", 4, "open", none⟩], 3⟩ 2 "done").2 2 "again" =
      (.ok "Escalation id=2 marked resolved. Human response:\n\nagain",
        ⟨[⟨1, "q1", "user", 3, "open", none⟩,
          ⟨2, "q2", "user", 4, "resolved", some "again"⟩], 3⟩) :=
  (respond_escalation_spec ⟨[⟨1, "q1", "user", 3, "open", none⟩,
      ⟨2, "q2", "user", 4, "open", none⟩], 3⟩ 2 "done" "again").2.2
    [⟨1, "q1", "user", 3, "open", none⟩] ⟨2, "q2", "user", 4, "open", none⟩ []
    rfl (by decide) rfl

/-- C3: with priority ≥ 5 the supervisor pushes a ticket carrying the query
and priority and acknowledges its id; the result does not depend on the
intent hint, the search-engine hint or the search backend, so no search or
support routing happens. -/
theorem supervisor_priority_escalation (r : DdgResp) (q : String) (i : Option String)
    (p : Int) (e : Option String) (s : QState) (h5 : 5 ≤ p) :
    supervisor r q i p e s =
      (.ok s!"Supervisor: Urgent issue — escalated to human operator with id={s.next_id}.",
        ⟨s.db ++ [⟨s.next_id, q, "user", p, "open", none⟩], s.next_id + 1⟩) := by
  simp only [supervisor]
  rw [if_pos h5]
  rfl

/-- Witness for C3: a query and hints that would otherwise route to search
with an unsupported engine are escalated untouched at priority 5. -/
theorem supervisor_priority_escalation_witness :
    supervisor .failure "find a refund" (some "search") 5 (some "bing") initState =
      (.ok "Supervisor: Urgent issue — escalated to human operator with id=1.",
        ⟨[⟨1, "find a refund", "user", 5, "open", none⟩], 2⟩) :=
  supervisor_priority_escalation .failure "find a refund" (some "search") 5 (some "bing")
    initState (by decide)

theorem str_append_empty (s : String) : s ++ "" = s := by
  cases s with
  | mk data =>
    show String.mk (data ++ []) = String.mk data
    rw [List.append_nil]

/-- C4: the Support Responder checks the FAQ keys in the fixed order refund,
tracking, cancel, warranty against the lower-cased query by substring; the
first matching key's answer is returned with the state untouched (so a query
containing "refund" always gets the refund answer, whatever else it
contains); and on no match it pushes a priority-3 ticket with the query and
acknowledges that ticket's id. -/
theorem customer_care_agent_spec (q : String) (s : QState) :
    faq.map Prod.fst = ["refund", "tracking", "cancel", "warranty"] ∧
    (∀ k v, faq.find? (fun kv => strContains (strLower q) kv.1) = some (k, v) →
      customer_care_agent q s = (s!"📞 Customer Care: {v}", s)) ∧
    (strContains (strLower q) "refund" = true →
      customer_care_agent q s =
        ("📞 Customer Care: Our refund policy: please request within 14 days at https://example.com/refund. Refunds processed in 5-7 business days.", s)) ∧
    ((∀ kv ∈ faq, strContains (strLower q) kv.1 = false) →
      customer_care_agent q s =
        (s!"📞 Customer Care: I couldn't confidently answer — I've created an escalation (id={s.next_id}) for a human operator to handle.",
          ⟨s.db ++ [⟨s.next_id, q, "user", 3, "open", none⟩], s.next_id + 1⟩)) := by
  refine ⟨rfl, ?_, ?_, ?_⟩
  · intro k v h
    simp only [customer_care_agent, h]
  · intro href
    have hfind : faq.find? (fun kv => strContains (strLower q) kv.1) =
        some ("refund", "Our refund policy: please request within 14 days at https://example.com/refund. Refunds processed in 5-7 business days.") :=
      List.find?_cons_of_pos _ href
    simp only [customer_care_agent, hfind]
    rfl
  · intro hnone
    have hfind : faq.find? (fun kv => strContains (strLower q) kv.1) = none :=
      List.find?_eq_none.2 (fun kv hkv => by rw [hnone kv hkv]; exact Bool.false_ne_true)
    simp only [customer_care_agent, hfind]
    rfl

/-- Witness for C4: a query containing both "refund" and "tracking" gets the
refund answer with no state change, and an unmatched query creates ticket 1
at priority 3. -/
theorem customer_care_agent_spec_witness :
    customer_care_agent "REFUND and tracking please" initState =
      ("📞 Customer Care: Our refund policy: please request within 14 days at https://example.com/refund. Refunds processed in 5-7 business days.", initState) ∧
    customer_care_agent "where is my parcel" initState =
      ("📞 Customer Care: I couldn't confidently answer — I've created an escalation (id=1) for a human operator to handle.",
        ⟨[⟨1, "where is my parcel", "user", 3, "open", none⟩], 2⟩) :=
  ⟨(customer_care_agent_spec "REFUND and tracking please" initState).2.2.1 (by decide),
   (customer_care_agent_spec "where is my parcel" initState).2.2.2 (by decide)⟩

/-- C5: with fewer than `n` fragments available the summary is the rejoin of
all fragments with no fabricated trailing period; with at least `n` it is
exactly the first `n` fragments rejoined with `". "` plus a trailing
period. -/
theorem summarize_spec (text : String) (n : Nat) :
    ((sentences_list text).length < n →
      summarize text n = String.intercalate ". " (sentences_list text)) ∧
    (n ≤ (sentences_list text).length →
      summarize text n =
          String.intercalate ". " ((sentences_list text).take n) ++ "." ∧
        ((sentences_list text).take n).length = n) := by
  constructor
  · intro hlt
    unfold summarize
    rw [List.take_of_length_le (Nat.le_of_lt hlt), if_neg (Nat.not_le_of_lt hlt),
      str_append_empty]
  · intro hle
    refine ⟨?_, by rw [List.length_take]; exact Nat.min_eq_left hle⟩
    unfold summarize
    rw [if_pos hle]

/-- Witness for C5: "Just one fragment" requested at 3 sentences gains no
period; "One. Two. Three" at 2 sentences is exactly two fragments plus a
period. -/
theorem summarize_spec_witness :
    (summarize "Just one fragment" 3 =
      String.intercalate ". " (sentences_list "Just one fragment")) ∧
    (summarize "One. Two. Three" 2 =
        String.intercalate ". " ((sentences_list "One. Two. Three").take 2) ++ "." ∧
      ((sentences_list "One. Two. Three").take 2).length = 2) :=
  ⟨(summarize_spec "Just one fragment" 3).1 (by decide),
   (summarize_spec "One. Two. Three" 2).2 (by decide)⟩

theorem collectLinks_eq (max_results : Nat) (anchors : List String) :
    ∀ acc : List String, acc.length < max_results →
      collectLinks max_results anchors acc =
        acc ++ (anchors.filter (fun a => strStartsWith a "http")).take
          (max_results - acc.length) := by
  induction anchors with
  | nil => intro acc hacc; simp [collectLinks]
  | cons href rest ih =>
    intro acc hacc
    simp only [collectLinks]
    by_cases hh : strStartsWith href "http" = true
    · have hfil : (href :: rest).filter (fun a => strStartsWith a "http") =
          href :: rest.filter (fun a => strStartsWith a "http") :=
        List.filter_cons_of_pos hh
      rw [hfil, if_pos hh]
      by_cases hbreak : max_results ≤ (acc ++ [href]).length
      · rw [if_pos hbreak]
        rw [List.length_append, List.length_cons, List.length_nil] at hbreak
        have h1 : max_results - acc.length = 1 := by omega
        rw [h1, List.take_succ_cons, List.take_zero]
      · rw [if_neg hbreak]
        rw [List.length_append, List.length_cons, List.length_nil] at hbreak
        have hlt : (acc ++ [href]).length < max_results := by
          rw [List.length_append, List.length_cons, List.length_nil]; omega
        rw [ih (acc ++ [href]) hlt, List.length_append, List.length_cons, List.length_nil]
        have h2 : max_results - acc.length = (max_results - (acc.length + (0 + 1))) + 1 := by
          omega
        rw [h2, List.take_succ_cons, List.append_assoc]
        rfl
    · have hfil : (href :: rest).filter (fun a => strStartsWith a "http") =
          rest.filter (fun a => strStartsWith a "http") :=
        List.filter_cons_of_neg (by simp [hh])
      rw [hfil, if_neg hh, if_neg (Nat.not_le_of_lt hacc)]
      exact ih acc hacc

/-- C6 counterexample: with `max_results = 0` and a single http anchor on a
status-200 page, `duckduckgo_search_links` still returns that link — one
element, which is more than `max_results` — because the loop only checks the
bound after appending. -/
theorem duckduckgo_search_links_zero_counterexample :
    duckduckgo_search_links (.success 200 ["http://a"]) 0 = ["http://a"] ∧
    ¬ (duckduckgo_search_links (.success 200 ["http://a"]) 0).length ≤ 0 := by
  constructor
  · rfl
  · decide

/-- C6 (amended): transport failure or a non-200 status yields the
single-element `"<error>Search failed</error>"` sentinel; on a 200 response
with `max_results ≥ 1` the result is the page-ordered http-prefixed anchors
truncated to `max_results` — or the single-element
`"<error>No results found</error>"` sentinel when there are none — and the
result is never empty for any input. -/
theorem duckduckgo_search_links_spec (max_results : Nat) :
    duckduckgo_search_links .failure max_results = ["<error>Search failed</error>"] ∧
    (∀ (status : Nat) (anchors : List String), status ≠ 200 →
      duckduckgo_search_links (.success status anchors) max_results =
        ["<error>Search failed</error>"]) ∧
    (∀ anchors : List String, 1 ≤ max_results →
      duckduckgo_search_links (.success 200 anchors) max_results =
        if (anchors.filter (fun a => strStartsWith a "http")).take max_results = []
        then ["<error>No results found</error>"]
        else (anchors.filter (fun a => strStartsWith a "http")).take max_results) ∧
    (∀ resp : DdgResp, duckduckgo_search_links resp max_results ≠ []) := by
  refine ⟨rfl, ?_, ?_, ?_⟩
  · intro status anchors hne
    simp only [duckduckgo_search_links, if_pos hne]
  · intro anchors hmax
    have hacc : ([] : List String).length < max_results := by
      simp only [List.length_nil]; omega
    have hcoll := collectLinks_eq max_results anchors [] hacc
    simp only [List.nil_append, List.length_nil, Nat.sub_zero] at hcoll
    simp only [duckduckgo_search_links, if_neg (by omega : ¬ (200 : Nat) ≠ 200), hcoll]
    by_cases hemp : (anchors.filter (fun a => strStartsWith a "http")).take max_results = []
    · rw [if_pos hemp, hemp]
      rfl
    · have hemp2 : ((anchors.filter (fun a => strStartsWith a "http")).take
          max_results).isEmpty = false := by
        cases hcase : (anchors.filter (fun a => strStartsWith a "http")).take max_results with
        | nil => exact absurd hcase hemp
        | cons a l => rfl
      rw [hemp2, if_neg hemp]
      simp
  · intro resp
    cases resp with
    | failure => simp [duckduckgo_search_links]
    | success status anchors =>
      simp only [duckduckgo_search_links]
      by_cases h200 : status ≠ 200
      · rw [if_pos h200]; simp
      · rw [if_neg h200]
        by_cases hemp : (collectLinks max_results anchors []).isEmpty = true
        · rw [if_pos hemp]; simp
        · rw [if_neg hemp]
          intro hcontra
          exact hemp (by rw [hcontra]; rfl)

/-- Witness for C6 (amended): a 200 page with a non-http anchor and three
http anchors at `max_results = 2` returns the first two http links in page
order, and a 404 returns the failure sentinel. -/
theorem duckduckgo_search_links_spec_witness :
    duckduckgo_search_links (.success 200 ["x", "http://a", "http://b", "http://c"]) 2 =
      (if ((["x", "http://a", "http://b", "http://c"].filter
            (fun a => strStartsWith a "http")).take 2) = []
       then ["<error>No results found</error>"]
       else (["x", "http://a", "http://b", "http://c"].filter
            (fun a => strStartsWith a "http")).take 2) ∧
    duckduckgo_search_links (.success 404 []) 2 = ["<error>Search failed</error>"] :=
  ⟨(duckduckgo_search_links_spec 2).2.2.1 ["x", "http://a", "http://b", "http://c"]
      (by decide),
   (duckduckgo_search_links_spec 2).2.1 404 [] (by decide)⟩

/-- The hard-failure condition of the fetch contract: a transport error or an
HTTP status ≥ 400. -/
def fetchHardFail : HttpResp → Prop
  | .transportError _ => True
  | .response status _ _ => 400 ≤ status

/-- C7: `fetch_url` fails — always with `INTERNAL_ERROR` — exactly when the
transport errors or the status is ≥ 400; an HTML response below 400 without
`force_raw` whose extraction yields nothing still succeeds with the literal
`"<error>Failed to simplify page</error>"` body and empty note; any other
below-400 response (non-HTML content type or `force_raw`) succeeds with the
raw text and a content-type note. -/
theorem fetch_url_spec (simplify : String → Option String) (md : String → String)
    (url : String) :
    (∀ (reason : String) (force_raw : Bool),
      fetch_url simplify md (.transportError reason) url force_raw =
        .error ⟨.internalError, s!"Failed to fetch {url}: {reason}"⟩) ∧
    (∀ (status : Nat) (ct txt : String) (force_raw : Bool), 400 ≤ status →
      fetch_url simplify md (.response status ct txt) url force_raw =
        .error ⟨.internalError, s!"Failed to fetch {url} - status {status}"⟩) ∧
    (∀ (resp : HttpResp) (force_raw : Bool),
      (∃ e, fetch_url simplify md resp url force_raw = .error e) ↔ fetchHardFail resp) ∧
    (∀ (status : Nat) (ct txt : String), status < 400 →
      strContains ct "text/html" = true → simplify txt = none →
      fetch_url simplify md (.response status ct txt) url false =
        .ok ("<error>Failed to simplify page</error>", "")) ∧
    (∀ (status : Nat) (ct txt : String) (force_raw : Bool), status < 400 →
      (strContains ct "text/html" = false ∨ force_raw = true) →
      fetch_url simplify md (.response status ct txt) url force_raw =
        .ok (txt, s!"Raw content with content-type: {ct}\n")) := by
  refine ⟨fun reason force_raw => rfl, ?_, ?_, ?_, ?_⟩
  · intro status ct txt force_raw hge
    simp only [fetch_url, if_pos hge]
  · intro resp force_raw
    cases resp with
    | transportError reason =>
      exact ⟨fun _ => trivial,
        fun _ => ⟨⟨.internalError, s!"Failed to fetch {url}: {reason}"⟩, rfl⟩⟩
    | response status ct txt =>
      constructor
      · rintro ⟨e, he⟩
        show 400 ≤ status
        by_contra hlt
        simp only [fetch_url, if_neg hlt] at he
        by_cases hh : (strContains ct "text/html" && !force_raw) = true
        · rw [if_pos hh] at he; cases he
        · rw [if_neg hh] at he; cases he
      · intro hge
        have hge2 : 400 ≤ status := hge
        exact ⟨⟨.internalError, s!"Failed to fetch {url} - status {status}"⟩,
          by simp only [fetch_url, if_pos hge2]⟩
  · intro status ct txt hlt hhtml hnone
    have hcond : (strContains ct "text/html" && !false) = true := by rw [hhtml]; rfl
    simp only [fetch_url, if_neg (Nat.not_le_of_lt hlt), if_pos hcond,
      extract_content_from_html, hnone]
  · intro status ct txt force_raw hlt hcase
    have hcond : ¬ ((strContains ct "text/html" && !force_raw) = true) := by
      rcases hcase with h | h
      · rw [h]; simp
      · rw [h]; simp
    simp only [fetch_url, if_neg (Nat.not_le_of_lt hlt), if_neg hcond]

/-- Witness for C7: a 404 fails hard; a 200 HTML page whose extraction yields
nothing degrades to the sentinel body; a 200 JSON response is returned raw
with a note. -/
theorem fetch_url_spec_witness :
    fetch_url (fun _ => none) id (.response 404 "text/html" "<html></html>") "http://x" false =
      .error ⟨.internalError, "Failed to fetch http://x - status 404"⟩ ∧
    fetch_url (fun _ => none) id
        (.response 200 "text/html; charset=utf-8" "<html></html>") "http://x" false =
      .ok ("<error>Failed to simplify page</error>", "") ∧
    fetch_url (fun _ => none) id (.response 200 "application/json" "[1]") "http://x" false =
      .ok ("[1]", "Raw content with content-type: application/json\n") :=
  ⟨(fetch_url_spec (fun _ => none) id "http://x").2.1 404 "text/html" "<html></html>"
      false (by decide),
   (fetch_url_spec (fun _ => none) id "http://x").2.2.2.1 200 "text/html; charset=utf-8"
      "<html></html>" (by decide) (by decide) rfl,
   (fetch_url_spec (fun _ => none) id "http://x").2.2.2.2 200 "application/json" "[1]"
      false (by decide) (Or.inl (by decide))⟩

/-- C8: below priority 5, a search signal — intent containing "search",
intent equal to "web" or "search", or query containing "find" or "look for",
all lower-cased — routes to the search agent with the hinted engine or the
"duckduckgo" default (a missing or empty hint is falsy in
`search_engine or "duckduckgo"`, so both mean the default), an unsupported
(nonempty) engine name failing with `INVALID_PARAMS` naming it; without a
search signal the query always goes to the Support Responder, so nothing is
dropped. -/
theorem supervisor_routing (r : DdgResp) (q : String) (i : Option String)
    (p : Int) (e : Option String) (s : QState) (h5 : p < 5) :
    (searchSignal (match i with | some t => strLower t | none => "") (strLower q) = true →
      supervisor r q i p e s = (web_search_agent r q (orDefault e "duckduckgo"), s)) ∧
    (searchSignal (match i with | some t => strLower t | none => "") (strLower q) = true →
      ∀ eng, e = some eng → eng ≠ "" →
      strLower eng ≠ "duckduckgo" → strLower eng ≠ "ddg" →
      supervisor r q i p e s = (.error ⟨.invalidParams, s!"Unsupported engine: {eng}"⟩, s)) ∧
    (searchSignal (match i with | some t => strLower t | none => "") (strLower q) = false →
      supervisor r q i p e s =
        (.ok (customer_care_agent q s).1, (customer_care_agent q s).2)) ∧
    (searchSignal (match i with | some t => strLower t | none => "") (strLower q) = true →
      e = none ∨ e = some "" →
      supervisor r q i p e s = (web_search_agent r q "duckduckgo", s)) := by
  have hnot5 : ¬ p ≥ 5 := by omega
  refine ⟨?_, ?_, ?_, ?_⟩
  · intro hsig
    simp only [supervisor, if_neg hnot5, if_pos hsig]
  · intro hsig eng heng hne hd1 hd2
    have hbeq : (eng == "") = false := beq_eq_false_iff_ne.2 hne
    have hweb : web_search_agent r q (orDefault e "duckduckgo") =
        .error ⟨.invalidParams, s!"Unsupported engine: {eng}"⟩ := by
      rw [heng]
      simp only [orDefault, hbeq, Bool.false_eq_true, if_false, web_search_agent]
      rw [if_neg (by rintro (h | h) <;> [exact hd1 h; exact hd2 h])]
    simp only [supervisor, if_neg hnot5, if_pos hsig, hweb]
  · intro hsig
    simp only [supervisor, if_neg hnot5, hsig, Bool.false_eq_true, if_false, ite_self]
  · intro hsig he
    rcases he with h | h <;> rw [h] <;>
      simp only [supervisor, if_neg hnot5, if_pos hsig] <;> rfl

/-- Witness for C8: a "find" query routes to search; a "look for" query with
engine hint "bing" fails with the unsupported-engine error; a support query
goes to the Support Responder; an empty engine hint falls back to the
"duckduckgo" default and still searches. -/
theorem supervisor_routing_witness :
    supervisor (.success 200 ["http://a"]) "find me rust articles" none 3 none initState =
      (web_search_agent (.success 200 ["http://a"]) "find me rust articles"
        (orDefault none "duckduckgo"), initState) ∧
    supervisor .failure "look for shoes" none 3 (some "bing") initState =
      (.error ⟨.invalidParams, "Unsupported engine: bing"⟩, initState) ∧
    supervisor .failure "what is your refund policy" (some "support") 3 none initState =
      (.ok (customer_care_agent "what is your refund policy" initState).1,
        (customer_care_agent "what is your refund policy" initState).2) ∧
    supervisor (.success 200 ["http://b"]) "look for boots" none 2 (some "") initState =
      (web_search_agent (.success 200 ["http://b"]) "look for boots" "duckduckgo",
        initState) :=
  ⟨(supervisor_routing (.success 200 ["http://a"]) "find me rust articles" none 3 none
      initState (by decide)).1 (by decide),
   (supervisor_routing .failure "look for shoes" none 3 (some "bing") initState
      (by decide)).2.1 (by decide) "bing" rfl (by decide) (by decide) (by decide),
   (supervisor_routing .failure "what is your refund policy" (some "support") 3 none
      initState (by decide)).2.2.1 (by decide),
   (supervisor_routing (.success 200 ["http://b"]) "look for boots" none 2 (some "")
      initState (by decide)).2.2.2 (by decide) (Or.inr rfl)⟩

/-- C9: listing with no filter renders every ticket in stored (creation)
order; a filter keeps exactly the tickets whose status equals it literally,
in order; each ticket renders as the one line
`id=<id> | priority=<p> | status=<s> | query=<q>`; an empty selection renders
as the literal `"No escalations."`, which is what any filter string outside
the open/resolved enum produces on every reachable state — never an error. -/
theorem list_escalations_spec (s : QState) (st : String) :
    (list_escalations s none =
      if s.db = [] then "No escalations."
      else String.intercalate "\n" (s.db.map renderTicket)) ∧
    (list_escalations s (some st) =
      if s.db.filter (fun e => e.status == st) = [] then "No escalations."
      else String.intercalate "\n"
        ((s.db.filter (fun e => e.status == st)).map renderTicket)) ∧
    (∀ (i : Nat) (q o : String) (p : Int) (stt : String) (hr : Option String),
      renderTicket ⟨i, q, o, p, stt, hr⟩ =
        "id=" ++ toString i ++ " | priority=" ++ toString p ++ " | status=" ++ stt ++
          " | query=" ++ q) ∧
    (∀ (ops : List Op) (f : String), f ≠ "open" → f ≠ "resolved" →
      list_escalations (run ops) (some f) = "No escalations.") := by
  refine ⟨?_, ?_, ?_, ?_⟩
  · simp only [list_escalations]
    rw [List.filter_true]
    cases hdb : s.db with
    | nil => rfl
    | cons a l => rfl
  · simp only [list_escalations]
    cases hrows : s.db.filter (fun e => e.status == st) with
    | nil => rfl
    | cons a l => rfl
  · intro i q o p stt hr
    have hts : ∀ x : String, toString x = x := fun _ => rfl
    simp only [renderTicket, hts, str_append_empty]
  · intro ops f hopen hres
    obtain ⟨_, hstat⟩ := run_invariant ops
    have hfil : (run ops).db.filter (fun e => e.status == f) = [] := by
      rw [List.filter_eq_nil_iff]
      intro t ht hx
      have heq : t.status = f := beq_iff_eq.1 hx
      rcases hstat t ht with ⟨h1, _⟩ | ⟨h1, _⟩
      · exact hopen (by rw [← heq]; exact h1)
      · exact hres (by rw [← heq]; exact h1)
    simp only [list_escalations, hfil]
    rfl

/-- Witness for C9 at its guarded conjunct: the filter string "weird" — not
in the open/resolved enum — yields the empty rendering on a reachable
one-ticket state. -/
theorem list_escalations_spec_witness :
    list_escalations (run [Op.care "where is my packet"]) (some "weird") =
      "No escalations." :=
  (list_escalations_spec initState "open").2.2.2 [Op.care "where is my packet"] "weird"
    (by decide) (by decide)

theorem fetch_url_error_code (simplify : String → Option String) (md : String → String)
    (resp : HttpResp) (url : String) (force_raw : Bool) (e : McpErr)
    (h : fetch_url simplify md resp url force_raw = .error e) :
    e.code = .internalError := by
  cases resp with
  | transportError reason =>
    simp only [fetch_url] at h
    injection h with h2
    rw [← h2]
  | response status ct txt =>
    simp only [fetch_url] at h
    by_cases hge : 400 ≤ status
    · rw [if_pos hge] at h
      injection h with h2
      rw [← h2]
    · rw [if_neg hge] at h
      by_cases hh : (strContains ct "text/html" && !force_raw) = true
      · rw [if_pos hh] at h; cases h
      · rw [if_neg hh] at h; cases h

/-- C10: `summarize_url` propagates the fetch's hard `INTERNAL_ERROR`
failures, and additionally turns any fetched body starting with `"<error>"` —
in particular the soft extraction sentinel — into a hard `INTERNAL_ERROR`
of its own; summarization only runs on bodies not starting with the
sentinel prefix. -/
theorem summarize_url_spec (simplify : String → Option String) (md : String → String)
    (resp : HttpResp) (url : String) (n : Nat) :
    (∀ e, fetch_url simplify md resp url false = .error e →
      summarize_url simplify md resp url n = .error e ∧ e.code = .internalError) ∧
    (∀ body note, fetch_url simplify md resp url false = .ok (body, note) →
      strStartsWith body "<error>" = true →
      summarize_url simplify md resp url n =
        .error ⟨.internalError, "Failed to fetch content."⟩) ∧
    (∀ body note, fetch_url simplify md resp url false = .ok (body, note) →
      strStartsWith body "<error>" = false →
      summarize_url simplify md resp url n = .ok (summarize body n)) := by
  refine ⟨?_, ?_, ?_⟩
  · intro e he
    exact ⟨by simp only [summarize_url, he],
      fetch_url_error_code simplify md resp url false e he⟩
  · intro body note hok hstart
    simp only [summarize_url, hok, if_pos hstart]
  · intro body note hok hstart
    simp only [summarize_url, hok, hstart, Bool.false_eq_true, if_false]

/-- Witness for C10: an HTML page with empty extraction fetches as the soft
sentinel body, which `summarize_url` promotes to the hard internal error; a
clean body is summarized; a transport failure propagates the fetch error. -/
theorem summarize_url_spec_witness :
    summarize_url (fun _ => none) id (.response 200 "text/html" "<html></html>") "http://x" 3 =
      .error ⟨.internalError, "Failed to fetch content."⟩ ∧
    summarize_url (fun _ => some "One. Two. Three. Four") id
        (.response 200 "text/html" "x") "http://x" 2 =
      .ok (summarize "One. Two. Three. Four" 2) ∧
    summarize_url (fun _ => none) id (.transportError "timeout") "http://x" 3 =
      .error ⟨.internalError, "Failed to fetch http://x: timeout"⟩ :=
  ⟨(summarize_url_spec (fun _ => none) id (.response 200 "text/html" "<html></html>")
      "http://x" 3).2.1 "<error>Failed to simplify page</error>" "" rfl rfl,
   (summarize_url_spec (fun _ => some "One. Two. Three. Four") id
      (.response 200 "text/html" "x") "http://x" 2).2.2 "One. Two. Three. Four" "" rfl rfl,
   ((summarize_url_spec (fun _ => none) id (.transportError "timeout") "http://x" 3).1
      ⟨.internalError, "Failed to fetch http://x: timeout"⟩ rfl).1⟩
